import Mathlib

/- Verification development for the bulk lifestyle-image generator:
   the queue data model (types.ts), the Gemini client wrapper
   (geminiService.ts) and the sequential batch runner (App.tsx). -/

namespace BulkImage

/-- Status of a queue item, the closed union in the ImageFile interface. -/
inductive Status where
  | pending
  | processing
  | completed
  | error
deriving DecidableEq, Repr

/-- Aspect-ratio union type of GenerationSettings and of the client call. -/
inductive AspectRatio where
  | r1x1
  | r3x4
  | r4x3
  | r9x16
  | r16x9
deriving DecidableEq, Repr

/-- A browser File object: the fields the program reads (name, MIME type)
    together with abstract binary content. -/
structure FileObj where
  name : String
  type : String
  content : String
deriving DecidableEq, Repr

/-- The ImageFile interface of types.ts: one uploaded image and its
    generation lifecycle. The optional TypeScript fields become Option. -/
structure ImageFile where
  id : String
  file : FileObj
  preview : String
  status : Status
  resultUrl : Option String := none
  error : Option String := none
deriving DecidableEq, Repr

/-- The GenerationSettings interface of types.ts. The preset field holds the
    description string of the chosen LifestylePreset (the enum is
    string-valued) or a free string. -/
structure GenerationSettings where
  preset : String
  customPrompt : String
  aspectRatio : AspectRatio
deriving DecidableEq, Repr

/-- The SCANDINAVIAN member of the string-valued LifestylePreset enum. -/
def LifestylePreset.SCANDINAVIAN : String :=
  "In a bright, airy Scandinavian living room with light wood furniture and soft textures"

/-- The MINIMALIST_ZEN member of the LifestylePreset enum. -/
def LifestylePreset.MINIMALIST_ZEN : String :=
  "In a minimalist zen space with natural stone, bamboo, and soft indirect lighting"

/- Response model of the generateContent call, as read by geminiService.ts:
   response.candidates?.[0]?.content?.parts together with
   part.inlineData.data. -/

/-- Inline data of a response part: base64 payload and its media type. -/
structure InlineData where
  data : String
  mimeType : String
deriving DecidableEq, Repr

/-- One content part of the response: optional inline image data and
    optional text. -/
structure RespPart where
  inlineData : Option InlineData := none
  text : Option String := none
deriving DecidableEq, Repr

/-- Content of one candidate: its list of parts. -/
structure RespContent where
  parts : List RespPart
deriving DecidableEq, Repr

/-- One response candidate with optional content. -/
structure Candidate where
  content : Option RespContent := none
deriving DecidableEq, Repr

/-- The generateContent response: an optional candidate list. -/
structure GenResponse where
  candidates : Option (List Candidate) := none
deriving DecidableEq, Repr

/-- The part list the client iterates:
    response.candidates?.[0]?.content?.parts with fallback to the empty
    list, mirroring the optional chaining in geminiService.ts. -/
def responseParts (r : GenResponse) : List RespPart :=
  match r.candidates with
  | none => []
  | some cs =>
    match cs.head? with
    | none => []
    | some c =>
      match c.content with
      | none => []
      | some content => content.parts

/-- The scanning loop of generateLifestyleImage: imageUrl starts empty, the
    first part carrying inlineData sets it to the data URL and breaks. -/
def findImageUrl : List RespPart → String
  | [] => ""
  | p :: rest =>
    match p.inlineData with
    | some idata => "data:image/png;base64," ++ idata.data
    | none => findImageUrl rest

/-- Arguments of one generateContent request as built by
    generateLifestyleImage: the encoded payload, its declared media type, the
    scene prompt and the aspect ratio. -/
structure GenCall where
  base64Data : String
  mimeType : String
  prompt : String
  aspectRatio : AspectRatio
deriving DecidableEq, Repr

/-- Environment oracle for the two I/O-bound effects: the FileReader
    encoding of fileToBase64 and the network round trip of generateContent.
    An error value models a rejected promise. -/
structure Env where
  encode : FileObj → Except String String
  api : GenCall → Except String GenResponse

/-- The exact message thrown when no response part carries image data. -/
def noImageMsg : String := "No image was generated in the response."

/-- generateLifestyleImage of geminiService.ts: perform the API call, scan
    the response parts in order for the first inline image, rethrow any
    transport failure unchanged, and throw noImageMsg when the scan finds
    nothing. -/
def generateLifestyleImage (env : Env) (base64Data mimeType prompt : String)
    (aspectRatio : AspectRatio) : Except String String :=
  match env.api ⟨base64Data, mimeType, prompt, aspectRatio⟩ with
  | .error e => .error e
  | .ok response =>
    let imageUrl := findImageUrl (responseParts response)
    if imageUrl = "" then .error noImageMsg
    else .ok imageUrl

/- Queue operations of App.tsx. The React state is the list of ImageFile
   values; every setImages call is a pure function of the previous list. -/

/-- One entry of the file-input change event: the generated id, the file and
    the object URL created for its preview. -/
structure NewFile where
  id : String
  file : FileObj
  preview : String
deriving DecidableEq, Repr

/-- handleFileChange: append one pending item per selected file, with no
    resultUrl and no error. -/
def handleFileChange (prev : List ImageFile) (newFiles : List NewFile) :
    List ImageFile :=
  prev ++ newFiles.map (fun nf =>
    { id := nf.id, file := nf.file, preview := nf.preview,
      status := .pending })

/-- removeImage: drop every item whose id equals the given id. -/
def removeImage (prev : List ImageFile) (i : String) : List ImageFile :=
  prev.filter (fun img => img.id ≠ i)

/-- clearAll: reset the collection to the empty list. -/
def clearAll (_prev : List ImageFile) : List ImageFile := []

/-- The id-keyed functional update shared by the three setImages calls of
    startProcessing: map over the list and rewrite the items whose id
    matches. -/
def updateById (i : String) (f : ImageFile → ImageFile)
    (imgs : List ImageFile) : List ImageFile :=
  imgs.map (fun item => if item.id = i then f item else item)

/-- The setImages call transitioning an item to processing. The object
    spread keeps every other field, including a stale error message. -/
def setProcessing (i : String) (imgs : List ImageFile) : List ImageFile :=
  updateById i (fun item => { item with status := .processing }) imgs

/-- The setImages call on success: status completed, resultUrl attached;
    the spread keeps all remaining fields. -/
def setCompleted (i : String) (resultUrl : String)
    (imgs : List ImageFile) : List ImageFile :=
  updateById i
    (fun item => { item with status := .completed, resultUrl := some resultUrl })
    imgs

/-- The setImages call on failure: status error, message attached; the
    spread keeps all remaining fields. -/
def setError (i : String) (msg : String) (imgs : List ImageFile) :
    List ImageFile :=
  updateById i
    (fun item => { item with status := .error, error := some msg }) imgs

/-- Observable effects of a run, recorded at the two points where the loop
    performs I/O for an item: the fileToBase64 call and the
    generateLifestyleImage call. -/
inductive Ev where
  | encode (itemId : String)
  | request (itemId : String) (call : GenCall)
deriving DecidableEq, Repr

/-- The item id an event belongs to. -/
def Ev.itemId : Ev → String
  | .encode i => i
  | .request i _ => i

/-- The effective prompt of a run: settings.customPrompt and the JS
    or-operator falls back to settings.preset exactly when the custom
    prompt is the empty string. -/
def effectivePrompt (settings : GenerationSettings) : String :=
  if settings.customPrompt = "" then settings.preset else settings.customPrompt

/-- One iteration of the startProcessing loop on snapshot item img: skip it
    when already completed, otherwise mark it processing, encode its file,
    call the client, and record the terminal outcome keyed by its id. -/
def processItem (env : Env) (settings : GenerationSettings)
    (finalPrompt : String) (st : List ImageFile) (img : ImageFile) :
    List ImageFile × List Ev :=
  if img.status = .completed then (st, [])
  else
    let st1 := setProcessing img.id st
    match env.encode img.file with
    | .error e => (setError img.id e st1, [.encode img.id])
    | .ok base64 =>
      match generateLifestyleImage env base64 img.file.type finalPrompt
          settings.aspectRatio with
      | .ok url =>
        (setCompleted img.id url st1,
         [.encode img.id,
          .request img.id ⟨base64, img.file.type, finalPrompt, settings.aspectRatio⟩])
      | .error e =>
        (setError img.id e st1,
         [.encode img.id,
          .request img.id ⟨base64, img.file.type, finalPrompt, settings.aspectRatio⟩])

/-- The sequential for-loop of startProcessing over the run-start snapshot,
    threading the live collection and collecting the events in order. -/
def runLoop (env : Env) (settings : GenerationSettings) (finalPrompt : String) :
    List ImageFile → List ImageFile → List ImageFile × List Ev
  | [], st => (st, [])
  | img :: rest, st =>
    let step := processItem env settings finalPrompt st img
    let tail := runLoop env settings finalPrompt rest step.1
    (tail.1, step.2 ++ tail.2)

/-- startProcessing of App.tsx: no-op on an empty batch, otherwise compute
    the effective prompt once and drive every snapshot item through the
    loop. Returns the final collection and the ordered event trace. -/
def startProcessing (env : Env) (settings : GenerationSettings)
    (images : List ImageFile) : List ImageFile × List Ev :=
  if images.length = 0 then (images, [])
  else runLoop env settings (effectivePrompt settings) images images

/- Derived characterizations of one run, proved below to agree with the
   loop. They let each claim be stated positionally. -/

/-- Combined outcome of processing one snapshot item: the encoding result
    chained into the client call, exactly as the try block does. -/
def itemOutcome (env : Env) (settings : GenerationSettings)
    (finalPrompt : String) (img : ImageFile) : Except String String :=
  match env.encode img.file with
  | .error e => .error e
  | .ok base64 =>
    generateLifestyleImage env base64 img.file.type finalPrompt
      settings.aspectRatio

/-- Net effect of the processing plus terminal setImages updates on a state
    item sharing the snapshot id: the intermediate processing status is
    overwritten by the terminal one, and the spreads keep all other fields. -/
def applyOutcome (o : Except String String) (item : ImageFile) : ImageFile :=
  match o with
  | .ok url => { item with status := .completed, resultUrl := some url }
  | .error e => { item with status := .error, error := some e }

/-- Final value of one snapshot item after a run: unchanged when already
    completed, otherwise its own outcome applied to it. -/
def runItemResult (env : Env) (settings : GenerationSettings)
    (finalPrompt : String) (img : ImageFile) : ImageFile :=
  if img.status = .completed then img
  else applyOutcome (itemOutcome env settings finalPrompt img) img

/-- Events one snapshot item contributes: none when skipped, the encode
    event always otherwise, and the request event when encoding succeeds. -/
def itemEvents (env : Env) (settings : GenerationSettings)
    (finalPrompt : String) (img : ImageFile) : List Ev :=
  if img.status = .completed then []
  else
    match env.encode img.file with
    | .error _ => [.encode img.id]
    | .ok base64 =>
      [.encode img.id,
       .request img.id ⟨base64, img.file.type, finalPrompt, settings.aspectRatio⟩]

/-- Concatenated events of a snapshot list, in order. -/
def traceOf (env : Env) (settings : GenerationSettings)
    (finalPrompt : String) : List ImageFile → List Ev
  | [] => []
  | img :: rest =>
    itemEvents env settings finalPrompt img ++
      traceOf env settings finalPrompt rest

/-- The client requests of an event trace, in order, each tagged with the
    item id that triggered it. -/
def requestsOf : List Ev → List (String × GenCall)
  | [] => []
  | .encode _ :: rest => requestsOf rest
  | .request i c :: rest => (i, c) :: requestsOf rest

/-- The request one snapshot item gives rise to, if any: none when the item
    is skipped as completed or its encoding fails. -/
def plannedRequest (env : Env) (settings : GenerationSettings)
    (finalPrompt : String) (img : ImageFile) : Option (String × GenCall) :=
  if img.status = .completed then none
  else
    match env.encode img.file with
    | .error _ => none
    | .ok base64 =>
      some (img.id, ⟨base64, img.file.type, finalPrompt, settings.aspectRatio⟩)

/- Reachable states and the per-item field invariants. -/

/-- The invariant that actually holds of every reachable item: resultUrl is
    present exactly on completed items, an error status always carries a
    message, and a pending item carries no message. A stale error message
    may remain on a processing or completed item that is re-run after an
    earlier failure, because the setImages spreads never clear it. -/
def ItemInv (item : ImageFile) : Prop :=
  (item.resultUrl.isSome ↔ item.status = .completed) ∧
  (item.status = .error → item.error.isSome) ∧
  (item.status = .pending → item.error = none)

/-- The invariant claimed by the specification: exactly one of resultUrl
    and error is set, only on completed respectively error items, and
    pending or processing items carry neither. -/
def ClaimedInv (item : ImageFile) : Prop :=
  (item.status = .completed → item.resultUrl.isSome ∧ item.error = none) ∧
  (item.status = .error → item.error.isSome ∧ item.resultUrl = none) ∧
  (item.status = .pending ∨ item.status = .processing →
    item.resultUrl = none ∧ item.error = none)

/-- The combined terminal setImages update of one in-flight item: its
    snapshot file is encoded and the client is called, then completed with
    the URL on success or error with the message on failure is written,
    keyed by the item id, into the current (possibly since mutated)
    collection. -/
def settleUpdate (env : Env) (settings : GenerationSettings) (fp : String)
    (img : ImageFile) (st : List ImageFile) : List ImageFile :=
  match env.encode img.file with
  | .error e => setError img.id e st
  | .ok base64 =>
    match generateLifestyleImage env base64 img.file.type fp
        settings.aspectRatio with
    | .ok url => setCompleted img.id url st
    | .error e => setError img.id e st

/-- A configuration of the batch machine: idle between runs; inside a run
    with the still-unprocessed suffix of the run-start snapshot; or with
    one snapshot item marked processing while its encoding and its request
    are awaited. The environment and the settings of a run are fixed at
    its start, matching the one-time read of the source. -/
inductive Conf where
  | idle (st : List ImageFile)
  | running (env : Env) (settings : GenerationSettings)
      (todo : List ImageFile) (st : List ImageFile)
  | inflight (env : Env) (settings : GenerationSettings)
      (img : ImageFile) (todo : List ImageFile) (st : List ImageFile)

/-- The visible collection of a configuration. -/
def Conf.state : Conf → List ImageFile
  | .idle st => st
  | .running _ _ _ st => st
  | .inflight _ _ _ _ st => st

/-- Small-step reachability of the batch machine from the empty
    collection, covering every per-item transition point of a run. A run
    walks its run-start snapshot exactly as the for loop does: it skips a
    snapshot-completed item, otherwise marks it processing (the collection
    state during the encode and the awaited request) and then settles it
    with its outcome. While a run is in progress the UI disables clearing
    and starting a second run; removing items, and adding files with
    freshly generated ids, remain possible at every suspension point. Added
    ids are fresh, per the unique-identifier data model. -/
inductive Reach : Conf → Prop where
  | empty : Reach (.idle [])
  | add (st : List ImageFile) (newFiles : List NewFile)
      (h : Reach (.idle st))
      (hnodup : (newFiles.map NewFile.id).Nodup)
      (hfresh : ∀ nf ∈ newFiles, nf.id ∉ st.map ImageFile.id) :
      Reach (.idle (handleFileChange st newFiles))
  | remove (st : List ImageFile) (i : String) (h : Reach (.idle st)) :
      Reach (.idle (removeImage st i))
  | clear (st : List ImageFile) (h : Reach (.idle st)) :
      Reach (.idle (clearAll st))
  | begin (env : Env) (settings : GenerationSettings) (st : List ImageFile)
      (h : Reach (.idle st)) (hne : st.length ≠ 0) :
      Reach (.running env settings st st)
  | skip (env : Env) (settings : GenerationSettings) (img : ImageFile)
      (rest st : List ImageFile)
      (h : Reach (.running env settings (img :: rest) st))
      (hc : img.status = .completed) :
      Reach (.running env settings rest st)
  | mark (env : Env) (settings : GenerationSettings) (img : ImageFile)
      (rest st : List ImageFile)
      (h : Reach (.running env settings (img :: rest) st))
      (hc : img.status ≠ .completed) :
      Reach (.inflight env settings img rest (setProcessing img.id st))
  | settle (env : Env) (settings : GenerationSettings) (img : ImageFile)
      (rest st : List ImageFile)
      (h : Reach (.inflight env settings img rest st)) :
      Reach (.running env settings rest
        (settleUpdate env settings (effectivePrompt settings) img st))
  | finish (env : Env) (settings : GenerationSettings)
      (st : List ImageFile)
      (h : Reach (.running env settings [] st)) :
      Reach (.idle st)
  | removeMid (env : Env) (settings : GenerationSettings)
      (todo st : List ImageFile) (i : String)
      (h : Reach (.running env settings todo st)) :
      Reach (.running env settings todo (removeImage st i))
  | removeFlight (env : Env) (settings : GenerationSettings)
      (img : ImageFile) (todo st : List ImageFile) (i : String)
      (h : Reach (.inflight env settings img todo st)) :
      Reach (.inflight env settings img todo (removeImage st i))
  | addMid (env : Env) (settings : GenerationSettings)
      (todo st : List ImageFile) (newFiles : List NewFile)
      (h : Reach (.running env settings todo st))
      (hnodup : (newFiles.map NewFile.id).Nodup)
      (hfresh : ∀ nf ∈ newFiles, nf.id ∉ st.map ImageFile.id) :
      Reach (.running env settings todo (handleFileChange st newFiles))
  | addFlight (env : Env) (settings : GenerationSettings)
      (img : ImageFile) (todo st : List ImageFile) (newFiles : List NewFile)
      (h : Reach (.inflight env settings img todo st))
      (hnodup : (newFiles.map NewFile.id).Nodup)
      (hfresh : ∀ nf ∈ newFiles, nf.id ∉ st.map ImageFile.id) :
      Reach (.inflight env settings img todo (handleFileChange st newFiles))

/-- Every item of the collection satisfies the field invariant. -/
def goodItems (st : List ImageFile) : Prop := ∀ it ∈ st, ItemInv it

/-- The collection carries pairwise distinct ids. -/
def idsNodup (st : List ImageFile) : Prop := (st.map ImageFile.id).Nodup

/-- No item of the collection carrying the given id is completed. -/
def notCompletedFor (i : String) (st : List ImageFile) : Prop :=
  ∀ it ∈ st, it.id = i → it.status ≠ .completed

/-- Every not-yet-processed, not-skipped snapshot item targets only
    non-completed live items. -/
def todoGuard (todo st : List ImageFile) : Prop :=
  ∀ img ∈ todo, img.status ≠ .completed → notCompletedFor img.id st

/-- Machine invariant of a configuration: the field invariant on every
    item, distinct live ids, and the run bookkeeping tying the remaining
    snapshot suffix to the live collection. -/
def MInv : Conf → Prop
  | .idle st => goodItems st ∧ idsNodup st
  | .running _ _ todo st =>
      goodItems st ∧ idsNodup st ∧ todoGuard todo st ∧
        (todo.map ImageFile.id).Nodup
  | .inflight _ _ img todo st =>
      goodItems st ∧ idsNodup st ∧ todoGuard todo st ∧
        ((img :: todo).map ImageFile.id).Nodup ∧ notCompletedFor img.id st

/- Concrete fixtures used to exhibit the theorems on closed inputs. -/

/-- A sample PNG upload. -/
def wFile : FileObj := { name := "a.png", type := "image/png", content := "hello" }

/-- A sample JPEG upload. -/
def wFileB : FileObj := { name := "b.jpg", type := "image/jpeg", content := "world" }

/-- Settings with an empty custom prompt and the Scandinavian preset. -/
def wSettings : GenerationSettings :=
  { preset := LifestylePreset.SCANDINAVIAN, customPrompt := "",
    aspectRatio := .r1x1 }

/-- A response whose first part is text and whose second part carries the
    inline image, with a non-PNG media type. -/
def wImgResponse : GenResponse :=
  { candidates := some [{ content := some { parts :=
      [ { text := some "a caption" },
        { inlineData := some { data := "IMGDATA", mimeType := "image/webp" } } ] } }] }

/-- An environment where encoding yields the file content and the API fails
    exactly for the payload of wFile. -/
def wEnvMix : Env :=
  { encode := fun f => .ok f.content,
    api := fun c =>
      if c.base64Data = "hello" then .error "boom" else .ok wImgResponse }

/-- A pending item whose request will fail under wEnvMix. -/
def wImgA : ImageFile :=
  { id := "a", file := wFile, preview := "pa", status := .pending }

/-- A pending item whose request will succeed under wEnvMix. -/
def wImgB : ImageFile :=
  { id := "b", file := wFileB, preview := "pb", status := .pending }

/-- An item already completed before the run. -/
def wImgDone : ImageFile :=
  { id := "c", file := wFileB, preview := "pc", status := .completed,
    resultUrl := some "data:image/png;base64,OLD" }

/-- A two-item batch: the first fails, the second succeeds. -/
def wImages : List ImageFile := [wImgA, wImgB]

/-- A batch with an already completed head item. -/
def wImagesDone : List ImageFile := [wImgDone, wImgB]

/-- The file added at the start of the counterexample history. -/
def cexNew : NewFile := { id := "a", file := wFile, preview := "pa" }

/-- Environment whose API call always fails. -/
def cexEnvFail : Env :=
  { encode := fun _ => .ok "B64", api := fun _ => .error "boom" }

/-- Environment whose API call always succeeds with wImgResponse. -/
def cexEnvOk : Env :=
  { encode := fun _ => .ok "B64", api := fun _ => .ok wImgResponse }

/-- The freshly added pending item of the counterexample history. -/
def cexItem0 : ImageFile :=
  { id := "a", file := wFile, preview := "pa", status := .pending }

/-- The same item after its first run failed. -/
def cexErrItem : ImageFile :=
  { id := "a", file := wFile, preview := "pa", status := .error,
    error := some "boom" }

/-- The same item while the second run re-processes it: processing, still
    carrying the stale error message of the first run. -/
def cexMidItem : ImageFile :=
  { id := "a", file := wFile, preview := "pa", status := .processing,
    error := some "boom" }

/-- The same item after the second run succeeded: completed, with the
    result URL and the stale error message both present. -/
def cexBad : ImageFile :=
  { id := "a", file := wFile, preview := "pa", status := .completed,
    resultUrl := some "data:image/png;base64,IMGDATA", error := some "boom" }

/- Lemmas about the id-keyed update. -/

/-- Updating by id leaves the id projection of the list unchanged whenever
    the update function preserves ids. -/
theorem updateById_map_id (i : String) (f : ImageFile → ImageFile)
    (hf : ∀ it, (f it).id = it.id) (l : List ImageFile) :
    (updateById i f l).map ImageFile.id = l.map ImageFile.id := by
  unfold updateById
  rw [List.map_map]
  refine List.map_congr_left ?_
  intro a _
  by_cases h : a.id = i <;> simp [h, hf]

/-- Updating an absent id is a no-op. -/
theorem updateById_of_not_mem (i : String) (f : ImageFile → ImageFile)
    (l : List ImageFile) (h : i ∉ l.map ImageFile.id) :
    updateById i f l = l := by
  unfold updateById
  have hp : ∀ a ∈ l, (fun item => if item.id = i then f item else item) a = id a := by
    intro a ha
    have hne : a.id ≠ i := fun hc => h (hc ▸ List.mem_map_of_mem ImageFile.id ha)
    simp [hne]
  rw [List.map_congr_left hp, List.map_id]

/-- Two successive updates at the same id fuse, as long as the inner update
    keeps the id. -/
theorem updateById_updateById (i : String) (f g : ImageFile → ImageFile)
    (hg : ∀ it, (g it).id = it.id) (l : List ImageFile) :
    updateById i f (updateById i g l) = updateById i (fun it => f (g it)) l := by
  unfold updateById
  rw [List.map_map]
  refine List.map_congr_left ?_
  intro a _
  by_cases h : a.id = i <;> simp [h, hg]

/-- applyOutcome keeps the item id. -/
theorem applyOutcome_id (o : Except String String) (item : ImageFile) :
    (applyOutcome o item).id = item.id := by
  cases o <;> rfl

/-- runItemResult keeps the item id. -/
theorem runItemResult_id (env : Env) (settings : GenerationSettings)
    (fp : String) (img : ImageFile) :
    (runItemResult env settings fp img).id = img.id := by
  unfold runItemResult
  split
  · rfl
  · exact applyOutcome_id _ _

/-- The state produced by one loop iteration: unchanged on a skip,
    otherwise a single id-keyed rewrite with the combined outcome of the
    snapshot item. -/
theorem processItem_fst (env : Env) (settings : GenerationSettings)
    (fp : String) (st : List ImageFile) (img : ImageFile) :
    (processItem env settings fp st img).1 =
      if img.status = .completed then st
      else updateById img.id
        (applyOutcome (itemOutcome env settings fp img)) st := by
  unfold processItem itemOutcome
  split
  · rfl
  · cases henc : env.encode img.file with
    | error e =>
      simp only [henc, setError, setProcessing]
      rw [updateById_updateById]
      · rfl
      · intro it; rfl
    | ok base64 =>
      simp only [henc]
      cases hgen : generateLifestyleImage env base64 img.file.type fp
          settings.aspectRatio with
      | ok url =>
        simp only [hgen, setCompleted, setProcessing]
        rw [updateById_updateById]
        · rfl
        · intro it; rfl
      | error e =>
        simp only [hgen, setError, setProcessing]
        rw [updateById_updateById]
        · rfl
        · intro it; rfl

/-- The events produced by one loop iteration. -/
theorem processItem_snd (env : Env) (settings : GenerationSettings)
    (fp : String) (st : List ImageFile) (img : ImageFile) :
    (processItem env settings fp st img).2 = itemEvents env settings fp img := by
  unfold processItem itemEvents
  split
  · rfl
  · cases henc : env.encode img.file with
    | error e => simp only [henc]
    | ok base64 =>
      simp only [henc]
      cases hgen : generateLifestyleImage env base64 img.file.type fp
          settings.aspectRatio with
      | ok url => simp only [hgen]
      | error e => simp only [hgen]

/-- The event trace of the loop does not depend on the threaded state. -/
theorem runLoop_snd (env : Env) (settings : GenerationSettings) (fp : String)
    (todo : List ImageFile) :
    ∀ st, (runLoop env settings fp todo st).2 = traceOf env settings fp todo := by
  induction todo with
  | nil => intro st; rfl
  | cons img rest ih =>
    intro st
    show (processItem env settings fp st img).2 ++
        (runLoop env settings fp rest (processItem env settings fp st img).1).2 =
      itemEvents env settings fp img ++ traceOf env settings fp rest
    rw [processItem_snd, ih]

/-- One iteration leaves a prefix of untouched ids alone. -/
theorem processItem_fst_append (env : Env) (settings : GenerationSettings)
    (fp : String) (pre st : List ImageFile) (img : ImageFile)
    (h : img.id ∉ pre.map ImageFile.id) :
    (processItem env settings fp (pre ++ st) img).1 =
      pre ++ (processItem env settings fp st img).1 := by
  rw [processItem_fst, processItem_fst]
  by_cases hc : img.status = .completed
  · rw [if_pos hc, if_pos hc]
  · rw [if_neg hc, if_neg hc]
    show (pre ++ st).map _ = pre ++ st.map _
    rw [List.map_append]
    congr 1
    exact updateById_of_not_mem _ _ _ h

/-- The loop leaves a prefix of ids foreign to the snapshot alone. -/
theorem runLoop_fst_append (env : Env) (settings : GenerationSettings)
    (fp : String) (todo : List ImageFile) :
    ∀ pre st, (∀ img ∈ todo, img.id ∉ pre.map ImageFile.id) →
      (runLoop env settings fp todo (pre ++ st)).1 =
        pre ++ (runLoop env settings fp todo st).1 := by
  induction todo with
  | nil => intro pre st _; rfl
  | cons img rest ih =>
    intro pre st h
    show (runLoop env settings fp rest
        (processItem env settings fp (pre ++ st) img).1).1 =
      pre ++ (runLoop env settings fp rest
        (processItem env settings fp st img).1).1
    rw [processItem_fst_append env settings fp pre st img (h img (List.mem_cons_self img rest))]
    exact ih pre _ (fun i hi => h i (List.mem_cons_of_mem _ hi))

/-- Main run characterization: with pairwise distinct ids, running the loop
    on its own snapshot rewrites every item independently to its own
    outcome. -/
theorem runLoop_self (env : Env) (settings : GenerationSettings) (fp : String)
    (images : List ImageFile) (h : (images.map ImageFile.id).Nodup) :
    (runLoop env settings fp images images).1 =
      images.map (runItemResult env settings fp) := by
  induction images with
  | nil => rfl
  | cons img rest ih =>
    rw [List.map_cons, List.nodup_cons] at h
    obtain ⟨hni, hnd⟩ := h
    have hstep : (processItem env settings fp (img :: rest) img).1 =
        runItemResult env settings fp img :: rest := by
      rw [processItem_fst]
      unfold runItemResult
      by_cases hc : img.status = .completed
      · rw [if_pos hc, if_pos hc]
      · rw [if_neg hc, if_neg hc]
        show (img :: rest).map _ = _
        rw [List.map_cons, if_pos rfl]
        congr 1
        exact updateById_of_not_mem _ _ _ hni
    have hpre : ∀ i ∈ rest,
        i.id ∉ [runItemResult env settings fp img].map ImageFile.id := by
      intro i hi
      simp only [List.map_cons, List.map_nil, runItemResult_id,
        List.mem_singleton]
      intro hc
      exact hni (by rw [← hc]; exact List.mem_map_of_mem ImageFile.id hi)
    show (runLoop env settings fp rest
        (processItem env settings fp (img :: rest) img).1).1 = _
    rw [hstep,
      show runItemResult env settings fp img :: rest =
        [runItemResult env settings fp img] ++ rest from rfl,
      runLoop_fst_append env settings fp rest [runItemResult env settings fp img]
        rest hpre,
      ih hnd]
    rfl

/-- startProcessing final state: every snapshot item mapped to its own
    outcome, under distinct ids. -/
theorem startProcessing_fst (env : Env) (settings : GenerationSettings)
    (images : List ImageFile) (h : (images.map ImageFile.id).Nodup) :
    (startProcessing env settings images).1 =
      images.map (runItemResult env settings (effectivePrompt settings)) := by
  unfold startProcessing
  split
  · rename_i hlen
    rw [List.length_eq_zero.mp hlen]
    rfl
  · exact runLoop_self env settings _ images h

/-- startProcessing event trace: the concatenated per-item events of the
    snapshot, in order. -/
theorem startProcessing_snd (env : Env) (settings : GenerationSettings)
    (images : List ImageFile) :
    (startProcessing env settings images).2 =
      traceOf env settings (effectivePrompt settings) images := by
  unfold startProcessing
  split
  · rename_i hlen
    rw [List.length_eq_zero.mp hlen]
    rfl
  · exact runLoop_snd env settings _ images images

/-- requestsOf distributes over concatenation. -/
theorem requestsOf_append (t1 t2 : List Ev) :
    requestsOf (t1 ++ t2) = requestsOf t1 ++ requestsOf t2 := by
  induction t1 with
  | nil => rfl
  | cons e rest ih => cases e <;> simp [requestsOf, ih]

/-- The requests one item contributes are exactly its planned request. -/
theorem requestsOf_itemEvents (env : Env) (settings : GenerationSettings)
    (fp : String) (img : ImageFile) :
    requestsOf (itemEvents env settings fp img) =
      (plannedRequest env settings fp img).toList := by
  unfold itemEvents plannedRequest
  by_cases hc : img.status = .completed
  · rw [if_pos hc, if_pos hc]
    rfl
  · rw [if_neg hc, if_neg hc]
    cases env.encode img.file <;> rfl

/-- The requests of a whole trace are the planned requests of the snapshot,
    in order. -/
theorem requestsOf_traceOf (env : Env) (settings : GenerationSettings)
    (fp : String) (todo : List ImageFile) :
    requestsOf (traceOf env settings fp todo) =
      todo.filterMap (plannedRequest env settings fp) := by
  induction todo with
  | nil => rfl
  | cons img rest ih =>
    show requestsOf (itemEvents env settings fp img ++
        traceOf env settings fp rest) = _
    rw [requestsOf_append, requestsOf_itemEvents, ih, List.filterMap_cons]
    cases plannedRequest env settings fp img <;> rfl

/-- Every trace event belongs to some snapshot item. -/
theorem mem_traceOf (env : Env) (settings : GenerationSettings) (fp : String)
    (todo : List ImageFile) (e : Ev)
    (h : e ∈ traceOf env settings fp todo) :
    ∃ img ∈ todo, e ∈ itemEvents env settings fp img := by
  induction todo with
  | nil => cases h
  | cons img rest ih =>
    rw [show traceOf env settings fp (img :: rest) =
        itemEvents env settings fp img ++ traceOf env settings fp rest from rfl,
      List.mem_append] at h
    cases h with
    | inl h => exact ⟨img, List.mem_cons_self img rest, h⟩
    | inr h =>
      obtain ⟨i, hi, he⟩ := ih h
      exact ⟨i, List.mem_cons_of_mem _ hi, he⟩

/-- Every event of an item carries that item id. -/
theorem itemEvents_itemId (env : Env) (settings : GenerationSettings)
    (fp : String) (img : ImageFile) (e : Ev)
    (h : e ∈ itemEvents env settings fp img) : e.itemId = img.id := by
  unfold itemEvents at h
  by_cases hc : img.status = .completed
  · rw [if_pos hc] at h
    cases h
  · rw [if_neg hc] at h
    cases henc : env.encode img.file <;> rw [henc] at h
    · simp only [List.mem_singleton] at h
      rw [h]
      rfl
    · simp only [List.mem_cons, List.not_mem_nil, or_false] at h
      rcases h with rfl | rfl <;> rfl

/-- A completed snapshot item contributes no events. -/
theorem itemEvents_of_completed (env : Env) (settings : GenerationSettings)
    (fp : String) (img : ImageFile) (h : img.status = .completed) :
    itemEvents env settings fp img = [] := by
  unfold itemEvents
  rw [if_pos h]

/-- After a run, every item is completed or error. -/
theorem runItemResult_status (env : Env) (settings : GenerationSettings)
    (fp : String) (img : ImageFile) :
    (runItemResult env settings fp img).status = .completed ∨
      (runItemResult env settings fp img).status = .error := by
  unfold runItemResult
  by_cases hc : img.status = .completed
  · rw [if_pos hc]
    exact Or.inl hc
  · rw [if_neg hc]
    cases itemOutcome env settings fp img with
    | ok url => exact Or.inl rfl
    | error e => exact Or.inr rfl

/-- One run preserves the per-item field invariant. -/
theorem itemInv_runItemResult (env : Env) (settings : GenerationSettings)
    (fp : String) (img : ImageFile) (h : ItemInv img) :
    ItemInv (runItemResult env settings fp img) := by
  unfold runItemResult
  by_cases hc : img.status = .completed
  · rw [if_pos hc]
    exact h
  · rw [if_neg hc]
    have hru : img.resultUrl = none :=
      Option.not_isSome_iff_eq_none.mp (fun hs => hc (h.1.mp hs))
    cases itemOutcome env settings fp img with
    | ok url =>
      refine ⟨?_, ?_, ?_⟩ <;> simp [applyOutcome]
    | error e =>
      refine ⟨?_, ?_, ?_⟩ <;> simp [applyOutcome, hru]

/-- Membership in an id-keyed update comes from membership in the base
    collection, either rewritten or untouched. -/
theorem mem_updateById (i : String) (f : ImageFile → ImageFile)
    (st : List ImageFile) (it2 : ImageFile) (h : it2 ∈ updateById i f st) :
    ∃ it ∈ st, it2 = if it.id = i then f it else it := by
  unfold updateById at h
  obtain ⟨it, hit, heq⟩ := List.mem_map.mp h
  exact ⟨it, hit, heq.symm⟩

/-- setProcessing preserves the field invariants when no completed live
    item carries the id. -/
theorem goodItems_setProcessing (i : String) (st : List ImageFile)
    (hg : goodItems st) (hnc : notCompletedFor i st) :
    goodItems (setProcessing i st) := by
  intro it2 h2
  obtain ⟨it, hit, heq⟩ := mem_updateById _ _ _ _ h2
  by_cases hc : it.id = i
  · rw [heq, if_pos hc]
    have hru : it.resultUrl = none :=
      Option.not_isSome_iff_eq_none.mp
        (fun hs => hnc it hit hc ((hg it hit).1.mp hs))
    exact ⟨by simp [ItemInv, hru], by simp, by simp⟩
  · rw [heq, if_neg hc]
    exact hg it hit

/-- setCompleted preserves the field invariants unconditionally. -/
theorem goodItems_setCompleted (i url : String) (st : List ImageFile)
    (hg : goodItems st) : goodItems (setCompleted i url st) := by
  intro it2 h2
  obtain ⟨it, hit, heq⟩ := mem_updateById _ _ _ _ h2
  by_cases hc : it.id = i
  · rw [heq, if_pos hc]
    exact ⟨by simp, by simp, by simp⟩
  · rw [heq, if_neg hc]
    exact hg it hit

/-- setError preserves the field invariants when no completed live item
    carries the id. -/
theorem goodItems_setError (i msg : String) (st : List ImageFile)
    (hg : goodItems st) (hnc : notCompletedFor i st) :
    goodItems (setError i msg st) := by
  intro it2 h2
  obtain ⟨it, hit, heq⟩ := mem_updateById _ _ _ _ h2
  by_cases hc : it.id = i
  · rw [heq, if_pos hc]
    have hru : it.resultUrl = none :=
      Option.not_isSome_iff_eq_none.mp
        (fun hs => hnc it hit hc ((hg it hit).1.mp hs))
    exact ⟨by simp [ItemInv, hru], by simp, by simp⟩
  · rw [heq, if_neg hc]
    exact hg it hit

/-- The settle update is the single id-keyed rewrite with the combined
    outcome of the settled snapshot item. -/
theorem settleUpdate_eq (env : Env) (settings : GenerationSettings)
    (fp : String) (img : ImageFile) (st : List ImageFile) :
    settleUpdate env settings fp img st =
      updateById img.id (applyOutcome (itemOutcome env settings fp img)) st := by
  unfold settleUpdate itemOutcome
  cases henc : env.encode img.file with
  | error e =>
    simp only [henc]
    rfl
  | ok base64 =>
    simp only [henc]
    cases hgen : generateLifestyleImage env base64 img.file.type fp
        settings.aspectRatio with
    | ok url =>
      simp only [hgen]
      rfl
    | error e =>
      simp only [hgen]
      rfl

/-- The terminal settle update preserves the field invariants when no
    completed live item carries the settled id. -/
theorem goodItems_settleUpdate (env : Env) (settings : GenerationSettings)
    (fp : String) (img : ImageFile) (st : List ImageFile)
    (hg : goodItems st) (hnc : notCompletedFor img.id st) :
    goodItems (settleUpdate env settings fp img st) := by
  rw [settleUpdate_eq]
  cases ho : itemOutcome env settings fp img with
  | ok url => exact goodItems_setCompleted img.id url st hg
  | error e => exact goodItems_setError img.id e st hg hnc

/-- An id-keyed update whose rewrite never yields completed preserves
    notCompletedFor every id. -/
theorem notCompletedFor_updateById (j i : String) (f : ImageFile → ImageFile)
    (st : List ImageFile) (hf : ∀ it, (f it).status ≠ .completed)
    (h : notCompletedFor j st) : notCompletedFor j (updateById i f st) := by
  intro it2 h2 hid
  obtain ⟨it, hit, heq⟩ := mem_updateById _ _ _ _ h2
  by_cases hc : it.id = i
  · rw [heq, if_pos hc]
    exact hf it
  · rw [heq, if_neg hc]
    rw [heq, if_neg hc] at hid
    exact h it hit hid

/-- An id-preserving update keyed by a different id preserves
    notCompletedFor. -/
theorem notCompletedFor_updateById_ne (j i : String)
    (f : ImageFile → ImageFile) (st : List ImageFile)
    (hf : ∀ it, (f it).id = it.id) (hne : j ≠ i)
    (h : notCompletedFor j st) : notCompletedFor j (updateById i f st) := by
  intro it2 h2 hid
  obtain ⟨it, hit, heq⟩ := mem_updateById _ _ _ _ h2
  by_cases hc : it.id = i
  · exfalso
    rw [heq, if_pos hc, hf it] at hid
    exact hne (by rw [← hid, hc])
  · rw [heq, if_neg hc]
    rw [heq, if_neg hc] at hid
    exact h it hit hid

/-- setProcessing establishes notCompletedFor its own id: every rewritten
    item is processing. -/
theorem notCompletedFor_setProcessing_self (i : String)
    (st : List ImageFile) : notCompletedFor i (setProcessing i st) := by
  intro it2 h2 hid
  obtain ⟨it, hit, heq⟩ := mem_updateById _ _ _ _ h2
  by_cases hc : it.id = i
  · rw [heq, if_pos hc]
    intro hcomp
    cases hcomp
  · exfalso
    rw [heq, if_neg hc] at hid
    exact hc hid

/-- setProcessing preserves notCompletedFor every id. -/
theorem notCompletedFor_setProcessing (j i : String) (st : List ImageFile)
    (h : notCompletedFor j st) : notCompletedFor j (setProcessing i st) :=
  notCompletedFor_updateById j i _ st (fun it hcomp => by cases hcomp) h

/-- The settle update keyed by a different id preserves notCompletedFor. -/
theorem notCompletedFor_settleUpdate (env : Env)
    (settings : GenerationSettings) (fp : String) (img : ImageFile)
    (st : List ImageFile) (j : String) (hne : j ≠ img.id)
    (h : notCompletedFor j st) :
    notCompletedFor j (settleUpdate env settings fp img st) := by
  rw [settleUpdate_eq]
  exact notCompletedFor_updateById_ne j img.id _ st
    (fun it => applyOutcome_id _ it) hne h

/-- Removal preserves the field invariants. -/
theorem goodItems_removeImage (st : List ImageFile) (i : String)
    (hg : goodItems st) : goodItems (removeImage st i) :=
  fun it hit => hg it (List.mem_of_mem_filter hit)

/-- Removal preserves notCompletedFor every id. -/
theorem notCompletedFor_removeImage (j : String) (st : List ImageFile)
    (i : String) (h : notCompletedFor j st) :
    notCompletedFor j (removeImage st i) :=
  fun it hit hid => h it (List.mem_of_mem_filter hit) hid

/-- Adding files preserves the field invariants: new items are pending
    with neither optional field. -/
theorem goodItems_handleFileChange (st : List ImageFile)
    (newFiles : List NewFile) (hg : goodItems st) :
    goodItems (handleFileChange st newFiles) := by
  intro it hit
  unfold handleFileChange at hit
  rw [List.mem_append] at hit
  cases hit with
  | inl hit => exact hg it hit
  | inr hit =>
    obtain ⟨nf, _, heq⟩ := List.mem_map.mp hit
    rw [← heq]
    exact ⟨by simp, by simp, by simp⟩

/-- Adding files preserves notCompletedFor every id: new items are
    pending. -/
theorem notCompletedFor_handleFileChange (j : String) (st : List ImageFile)
    (newFiles : List NewFile) (h : notCompletedFor j st) :
    notCompletedFor j (handleFileChange st newFiles) := by
  intro it hit hid
  unfold handleFileChange at hit
  rw [List.mem_append] at hit
  cases hit with
  | inl hit => exact h it hit hid
  | inr hit =>
    obtain ⟨nf, _, heq⟩ := List.mem_map.mp hit
    rw [← heq]
    intro hcomp
    cases hcomp

/-- An id-preserving update keeps the ids distinct. -/
theorem idsNodup_updateById (i : String) (f : ImageFile → ImageFile)
    (st : List ImageFile) (hf : ∀ it, (f it).id = it.id)
    (h : idsNodup st) : idsNodup (updateById i f st) := by
  unfold idsNodup
  rw [updateById_map_id i f hf st]
  exact h

/-- The settle update keeps the ids distinct. -/
theorem idsNodup_settleUpdate (env : Env) (settings : GenerationSettings)
    (fp : String) (img : ImageFile) (st : List ImageFile)
    (h : idsNodup st) : idsNodup (settleUpdate env settings fp img st) := by
  rw [settleUpdate_eq]
  exact idsNodup_updateById img.id _ st (fun it => applyOutcome_id _ it) h

/-- Removal keeps the ids distinct. -/
theorem idsNodup_removeImage (st : List ImageFile) (i : String)
    (h : idsNodup st) : idsNodup (removeImage st i) :=
  h.sublist (List.Sublist.map ImageFile.id (List.filter_sublist st))

/-- Adding files with fresh, pairwise distinct ids keeps the ids
    distinct. -/
theorem idsNodup_handleFileChange (st : List ImageFile)
    (newFiles : List NewFile)
    (hnodup : (newFiles.map NewFile.id).Nodup)
    (hfresh : ∀ nf ∈ newFiles, nf.id ∉ st.map ImageFile.id)
    (h : idsNodup st) : idsNodup (handleFileChange st newFiles) := by
  unfold idsNodup handleFileChange
  rw [List.map_append, List.map_map, List.nodup_append]
  refine ⟨h, ?_, ?_⟩
  · rw [show (ImageFile.id ∘ fun nf : NewFile =>
        ({ id := nf.id, file := nf.file, preview := nf.preview,
           status := .pending } : ImageFile)) = NewFile.id from rfl]
    exact hnodup
  · intro a ha hb
    obtain ⟨nf, hnf, hna⟩ := List.mem_map.mp hb
    refine hfresh nf hnf ?_
    rw [← hna] at ha
    exact ha

/-- Main safety result of the batch machine: every reachable
    configuration satisfies the machine invariant. -/
theorem reach_MInv (c : Conf) (h : Reach c) : MInv c := by
  induction h with
  | empty =>
    exact ⟨fun it hit => absurd hit (List.not_mem_nil it), List.nodup_nil⟩
  | add st newFiles h hnodup hfresh ih =>
    exact ⟨goodItems_handleFileChange st newFiles ih.1,
           idsNodup_handleFileChange st newFiles hnodup hfresh ih.2⟩
  | remove st i h ih =>
    exact ⟨goodItems_removeImage st i ih.1, idsNodup_removeImage st i ih.2⟩
  | clear st h ih =>
    exact ⟨fun it hit => absurd hit (List.not_mem_nil it), List.nodup_nil⟩
  | @begin env settings st h hne ih =>
    obtain ⟨hg, hn⟩ := ih
    refine ⟨hg, hn, ?_, hn⟩
    intro img hmem hst it hit hid hcomp
    have heq : it = img := List.inj_on_of_nodup_map hn hit hmem hid
    rw [heq] at hcomp
    exact hst hcomp
  | @skip env settings img rest st h hc ih =>
    obtain ⟨hg, hn, htg, htn⟩ := ih
    rw [List.map_cons, List.nodup_cons] at htn
    refine ⟨hg, hn, ?_, htn.2⟩
    intro i2 hi2
    exact htg i2 (List.mem_cons_of_mem _ hi2)
  | @mark env settings img rest st h hc ih =>
    obtain ⟨hg, hn, htg, htn⟩ := ih
    have hnc : notCompletedFor img.id st :=
      htg img (List.mem_cons_self img rest) hc
    refine ⟨goodItems_setProcessing img.id st hg hnc,
            idsNodup_updateById img.id _ st (fun it => rfl) hn, ?_, htn,
            notCompletedFor_setProcessing_self img.id st⟩
    intro img2 hmem2 hst2
    exact notCompletedFor_setProcessing img2.id img.id st
      (htg img2 (List.mem_cons_of_mem _ hmem2) hst2)
  | @settle env settings img rest st h ih =>
    obtain ⟨hg, hn, htg, hcn, hnc⟩ := ih
    rw [List.map_cons, List.nodup_cons] at hcn
    refine ⟨goodItems_settleUpdate env settings _ img st hg hnc,
            idsNodup_settleUpdate env settings _ img st hn, ?_, hcn.2⟩
    intro img2 hmem2 hst2
    have hne : img2.id ≠ img.id := by
      intro hceq
      refine hcn.1 ?_
      rw [← hceq]
      exact List.mem_map_of_mem ImageFile.id hmem2
    exact notCompletedFor_settleUpdate env settings _ img st img2.id hne
      (htg img2 hmem2 hst2)
  | finish env settings st h ih =>
    exact ⟨ih.1, ih.2.1⟩
  | @removeMid env settings todo st i h ih =>
    obtain ⟨hg, hn, htg, htn⟩ := ih
    refine ⟨goodItems_removeImage st i hg, idsNodup_removeImage st i hn,
            ?_, htn⟩
    intro img2 hmem2 hst2
    exact notCompletedFor_removeImage img2.id st i (htg img2 hmem2 hst2)
  | @removeFlight env settings img todo st i h ih =>
    obtain ⟨hg, hn, htg, hcn, hnc⟩ := ih
    refine ⟨goodItems_removeImage st i hg, idsNodup_removeImage st i hn,
            ?_, hcn, notCompletedFor_removeImage img.id st i hnc⟩
    intro img2 hmem2 hst2
    exact notCompletedFor_removeImage img2.id st i (htg img2 hmem2 hst2)
  | @addMid env settings todo st newFiles h hnodup hfresh ih =>
    obtain ⟨hg, hn, htg, htn⟩ := ih
    refine ⟨goodItems_handleFileChange st newFiles hg,
            idsNodup_handleFileChange st newFiles hnodup hfresh hn, ?_, htn⟩
    intro img2 hmem2 hst2
    exact notCompletedFor_handleFileChange img2.id st newFiles
      (htg img2 hmem2 hst2)
  | @addFlight env settings img todo st newFiles h hnodup hfresh ih =>
    obtain ⟨hg, hn, htg, hcn, hnc⟩ := ih
    refine ⟨goodItems_handleFileChange st newFiles hg,
            idsNodup_handleFileChange st newFiles hnodup hfresh hn, ?_, hcn,
            notCompletedFor_handleFileChange img.id st newFiles hnc⟩
    intro img2 hmem2 hst2
    exact notCompletedFor_handleFileChange img2.id st newFiles
      (htg img2 hmem2 hst2)

/-- The machine invariant gives the field invariant on the visible
    collection. -/
theorem MInv_state (c : Conf) (h : MInv c) : ∀ it ∈ c.state, ItemInv it := by
  cases c with
  | idle st => exact h.1
  | running env settings todo st => exact h.1
  | inflight env settings img todo st => exact h.1

/-- Unfolding equation for the scanning loop on a cons cell. -/
theorem findImageUrl_cons (p : RespPart) (rest : List RespPart) :
    findImageUrl (p :: rest) =
      match p.inlineData with
      | some idata => "data:image/png;base64," ++ idata.data
      | none => findImageUrl rest := rfl

/-- A produced data URL is never the empty string. -/
theorem dataUrl_ne_empty (d : String) :
    "data:image/png;base64," ++ d ≠ "" := by
  intro h
  have h2 := congrArg String.length h
  rw [String.length_append] at h2
  have h3 : ("data:image/png;base64," : String).length = 22 := rfl
  have h4 : ("" : String).length = 0 := rfl
  rw [h3, h4] at h2
  omega

/-- The loop leaves imageUrl empty exactly when no part carries inline
    data. -/
theorem findImageUrl_eq_empty_iff (parts : List RespPart) :
    findImageUrl parts = "" ↔ ∀ p ∈ parts, p.inlineData = none := by
  induction parts with
  | nil =>
    constructor
    · intro _ p hp
      cases hp
    · intro _
      rfl
  | cons p rest ih =>
    rw [findImageUrl_cons]
    cases hd : p.inlineData with
    | some idata =>
      constructor
      · intro h
        exact absurd h (dataUrl_ne_empty idata.data)
      · intro h
        have hx := h p (List.mem_cons_self p rest)
        rw [hd] at hx
        cases hx
    | none =>
      rw [ih]
      constructor
      · intro h q hq
        rcases List.mem_cons.mp hq with rfl | hq
        · exact hd
        · exact h q hq
      · intro h q hq
        exact h q (List.mem_cons_of_mem _ hq)

/-- The loop returns the data URL of the first part carrying inline data. -/
theorem findImageUrl_of_find (parts : List RespPart) :
    ∀ part idata,
      parts.find? (fun p => p.inlineData.isSome) = some part →
      part.inlineData = some idata →
      findImageUrl parts = "data:image/png;base64," ++ idata.data := by
  induction parts with
  | nil =>
    intro part idata h _
    cases h
  | cons p rest ih =>
    intro part idata hfind hdata
    rw [findImageUrl_cons]
    cases hd : p.inlineData with
    | some i2 =>
      have hpos : p.inlineData.isSome = true := by
        rw [hd]
        rfl
      rw [List.find?_cons_of_pos rest hpos] at hfind
      have hp : p = part := Option.some_inj.mp hfind
      rw [← hp, hd] at hdata
      have hi : i2 = idata := Option.some_inj.mp hdata
      rw [hi]
    | none =>
      have hneg : ¬ p.inlineData.isSome = true := by
        rw [hd]
        simp
      rw [List.find?_cons_of_neg rest hneg] at hfind
      exact ih part idata hfind hdata

/-- Any nonempty loop result is the data URL of some part carrying inline
    data. -/
theorem findImageUrl_mem (parts : List RespPart) :
    ∀ url, findImageUrl parts = url → url ≠ "" →
      ∃ p ∈ parts, ∃ idata, p.inlineData = some idata ∧
        url = "data:image/png;base64," ++ idata.data := by
  induction parts with
  | nil =>
    intro url h hne
    exact absurd h.symm hne
  | cons p rest ih =>
    intro url h hne
    rw [findImageUrl_cons] at h
    cases hd : p.inlineData with
    | some idata =>
      rw [hd] at h
      exact ⟨p, List.mem_cons_self p rest, idata, hd, h.symm⟩
    | none =>
      rw [hd] at h
      obtain ⟨q, hq, hrest⟩ := ih url h hne
      exact ⟨q, List.mem_cons_of_mem _ hq, hrest⟩

/-- On a transport success the client reduces to the scan of the response
    parts. -/
theorem generateLifestyleImage_ok (env : Env) (b64 mt pr : String)
    (ar : AspectRatio) (resp : GenResponse)
    (hapi : env.api ⟨b64, mt, pr, ar⟩ = .ok resp) :
    generateLifestyleImage env b64 mt pr ar =
      (if findImageUrl (responseParts resp) = "" then Except.error noImageMsg
       else .ok (findImageUrl (responseParts resp))) := by
  unfold generateLifestyleImage
  rw [hapi]

/-- C7: generateLifestyleImage scans the response content parts in order
    and returns the image of the first part that carries inline image data,
    re-encoded as a data URL; in particular a leading text part is skipped
    and the call does not fail. -/
theorem claim7_first_inline_part (env : Env) (b64 mt pr : String)
    (ar : AspectRatio) (resp : GenResponse) (part : RespPart)
    (idata : InlineData)
    (hapi : env.api ⟨b64, mt, pr, ar⟩ = .ok resp)
    (hfind : (responseParts resp).find? (fun p => p.inlineData.isSome) = some part)
    (hdata : part.inlineData = some idata) :
    generateLifestyleImage env b64 mt pr ar =
      .ok ("data:image/png;base64," ++ idata.data) := by
  rw [generateLifestyleImage_ok env b64 mt pr ar resp hapi,
    findImageUrl_of_find (responseParts resp) part idata hfind hdata,
    if_neg (dataUrl_ne_empty idata.data)]

/-- C7 witness: a response whose first part is text and whose second part
    is inline image data yields the image of the second part. -/
theorem claim7_witness :
    ((responseParts wImgResponse).find? (fun p => p.inlineData.isSome) =
      some { inlineData := some { data := "IMGDATA", mimeType := "image/webp" },
             text := none }) ∧
    generateLifestyleImage wEnvMix "world" "image/jpeg" "scene" AspectRatio.r3x4 =
      .ok ("data:image/png;base64," ++ "IMGDATA") :=
  ⟨by decide,
   claim7_first_inline_part wEnvMix "world" "image/jpeg" "scene"
     AspectRatio.r3x4 wImgResponse
     { inlineData := some { data := "IMGDATA", mimeType := "image/webp" },
       text := none }
     { data := "IMGDATA", mimeType := "image/webp" }
     rfl (by decide) rfl⟩

/-- C8: under a successful API call, the no-image error is raised exactly
    when no response part carries inline image data. -/
theorem claim8_no_image_iff (env : Env) (b64 mt pr : String)
    (ar : AspectRatio) (resp : GenResponse)
    (hapi : env.api ⟨b64, mt, pr, ar⟩ = .ok resp) :
    (generateLifestyleImage env b64 mt pr ar = .error noImageMsg ↔
      ∀ p ∈ responseParts resp, p.inlineData = none) := by
  rw [generateLifestyleImage_ok env b64 mt pr ar resp hapi]
  by_cases hc : findImageUrl (responseParts resp) = ""
  · rw [if_pos hc]
    constructor
    · intro _
      exact (findImageUrl_eq_empty_iff _).mp hc
    · intro _
      rfl
  · rw [if_neg hc]
    constructor
    · intro h
      exact Except.noConfusion h
    · intro h
      exact absurd ((findImageUrl_eq_empty_iff _).mpr h) hc

/-- C8 witness: with an image part present no no-image error is raised. -/
theorem claim8_witness :
    (wEnvMix.api ⟨"payload", "image/png", "scene", AspectRatio.r1x1⟩ =
      .ok wImgResponse) ∧
    (generateLifestyleImage wEnvMix "payload" "image/png" "scene"
        AspectRatio.r1x1 = .error noImageMsg ↔
      ∀ p ∈ responseParts wImgResponse, p.inlineData = none) :=
  ⟨rfl,
   claim8_no_image_iff wEnvMix "payload" "image/png" "scene" AspectRatio.r1x1
     wImgResponse rfl⟩

/-- C10: every successful result is the fixed PNG data-URL prefix followed
    by the data of some inline part, regardless of the supplied input media
    type and of the media type the API returned. -/
theorem claim10_png_data_url (env : Env) (b64 mt pr : String)
    (ar : AspectRatio) (resp : GenResponse) (url : String)
    (hapi : env.api ⟨b64, mt, pr, ar⟩ = .ok resp)
    (hres : generateLifestyleImage env b64 mt pr ar = .ok url) :
    ∃ p ∈ responseParts resp, ∃ idata, p.inlineData = some idata ∧
      url = "data:image/png;base64," ++ idata.data := by
  rw [generateLifestyleImage_ok env b64 mt pr ar resp hapi] at hres
  by_cases hc : findImageUrl (responseParts resp) = ""
  · rw [if_pos hc] at hres
    exact Except.noConfusion hres
  · rw [if_neg hc] at hres
    injection hres with hu
    refine findImageUrl_mem (responseParts resp) url hu ?_
    rw [← hu]
    exact hc

/-- C10 witness: a JPEG input and a WEBP response part still produce a
    result reference declaring the PNG media type. -/
theorem claim10_witness :
    (generateLifestyleImage wEnvMix "world" "image/jpeg" "scene"
        AspectRatio.r16x9 = .ok "data:image/png;base64,IMGDATA") ∧
    (∃ p ∈ responseParts wImgResponse, ∃ idata, p.inlineData = some idata ∧
      "data:image/png;base64,IMGDATA" = "data:image/png;base64," ++ idata.data) :=
  ⟨rfl,
   claim10_png_data_url wEnvMix "world" "image/jpeg" "scene" AspectRatio.r16x9
     wImgResponse "data:image/png;base64,IMGDATA" rfl rfl⟩

/-- C9: resolving a request for a removed item is harmless: removal makes
    the id absent from the collection, and both terminal id-keyed updates
    (the success one and the failure one) are no-ops on any collection not
    containing the id, so the removed item is not resurrected and nothing
    fails. -/
theorem claim9_stale_update_noop (imgs imgs0 : List ImageFile)
    (i url msg : String) (h : i ∉ imgs.map ImageFile.id) :
    setCompleted i url imgs = imgs ∧ setError i msg imgs = imgs ∧
      i ∉ (removeImage imgs0 i).map ImageFile.id := by
  refine ⟨updateById_of_not_mem _ _ _ h, updateById_of_not_mem _ _ _ h, ?_⟩
  intro hmem
  obtain ⟨img, hmemf, hid⟩ := List.mem_map.mp hmem
  have hpred := (List.mem_filter.mp hmemf).2
  have hne : img.id ≠ i := of_decide_eq_true hpred
  exact hne hid

/-- C9 witness: after removing item b, the terminal updates keyed by b are
    no-ops on the remaining collection. -/
theorem claim9_witness :
    ("b" ∉ (removeImage [wImgA, wImgB] "b").map ImageFile.id) ∧
    (setCompleted "b" "data:image/png;base64,IMGDATA"
        (removeImage [wImgA, wImgB] "b") = removeImage [wImgA, wImgB] "b" ∧
      setError "b" "boom" (removeImage [wImgA, wImgB] "b") =
        removeImage [wImgA, wImgB] "b" ∧
      "b" ∉ (removeImage [wImgA, wImgB] "b").map ImageFile.id) :=
  ⟨by decide,
   claim9_stale_update_noop (removeImage [wImgA, wImgB] "b") [wImgA, wImgB]
     "b" "data:image/png;base64,IMGDATA" "boom" (by decide)⟩

/-- C2: after a run over a batch with pairwise distinct ids, every item of
    the run-start snapshot ends with status completed or error; none
    remains pending or processing. -/
theorem claim2_run_terminal (env : Env) (settings : GenerationSettings)
    (images : List ImageFile)
    (hnd : (images.map ImageFile.id).Nodup) :
    (startProcessing env settings images).1.length = images.length ∧
    ∀ it ∈ (startProcessing env settings images).1,
      it.status = .completed ∨ it.status = .error := by
  rw [startProcessing_fst env settings images hnd]
  refine ⟨by simp, ?_⟩
  intro it hit
  obtain ⟨img, _, heq⟩ := List.mem_map.mp hit
  rw [← heq]
  exact runItemResult_status env settings _ img

/-- C2 witness: a two-item batch with one failure and one success ends all
    terminal. -/
theorem claim2_witness :
    ((wImages.map ImageFile.id).Nodup) ∧
    ((startProcessing wEnvMix wSettings wImages).1.length = wImages.length ∧
     ∀ it ∈ (startProcessing wEnvMix wSettings wImages).1,
       it.status = .completed ∨ it.status = .error) :=
  ⟨by decide, claim2_run_terminal wEnvMix wSettings wImages (by decide)⟩

/-- C3: the run is a single sequential loop, so requests are never in
    flight together; the ordered request list of a run equals the planned
    request of each snapshot item in insertion order (completed items and
    failed encodings contribute none), hence for [A, B, C] the client is
    called for A, then B, then C. -/
theorem claim3_sequential_order (env : Env) (settings : GenerationSettings)
    (images : List ImageFile) :
    requestsOf ((startProcessing env settings images).2) =
      images.filterMap (plannedRequest env settings (effectivePrompt settings)) := by
  rw [startProcessing_snd, requestsOf_traceOf]

/-- C4: one item never aborts the batch: each non-completed snapshot item,
    at its own position, ends in the state its own outcome alone
    determines; on failure it ends status error carrying the message, on
    success status completed carrying the result URL. -/
theorem claim4_failure_isolated (env : Env) (settings : GenerationSettings)
    (images : List ImageFile) (i : Nat) (img : ImageFile)
    (hnd : (images.map ImageFile.id).Nodup)
    (hget : images[i]? = some img)
    (hst : img.status ≠ .completed) :
    ((startProcessing env settings images).1)[i]? =
      some (applyOutcome (itemOutcome env settings (effectivePrompt settings) img) img) ∧
    (∀ e, itemOutcome env settings (effectivePrompt settings) img = .error e →
      ∃ it, ((startProcessing env settings images).1)[i]? = some it ∧
        it.status = .error ∧ it.error = some e) ∧
    (∀ url, itemOutcome env settings (effectivePrompt settings) img = .ok url →
      ∃ it, ((startProcessing env settings images).1)[i]? = some it ∧
        it.status = .completed ∧ it.resultUrl = some url) := by
  have hpos : ((startProcessing env settings images).1)[i]? =
      some (applyOutcome (itemOutcome env settings (effectivePrompt settings) img) img) := by
    rw [startProcessing_fst env settings images hnd, List.getElem?_map, hget,
      Option.map_some']
    unfold runItemResult
    rw [if_neg hst]
  refine ⟨hpos, ?_, ?_⟩
  · intro e he
    refine ⟨_, hpos, ?_, ?_⟩ <;> rw [he] <;> rfl
  · intro url hu
    refine ⟨_, hpos, ?_, ?_⟩ <;> rw [hu] <;> rfl

/-- C4 witness: for [A(fails), B(succeeds)], after the run A has status
    error with the failure message and B has status completed with its
    result URL. -/
theorem claim4_witness :
    (∃ it, ((startProcessing wEnvMix wSettings wImages).1)[0]? = some it ∧
      it.status = Status.error ∧ it.error = some "boom") ∧
    (∃ it, ((startProcessing wEnvMix wSettings wImages).1)[1]? = some it ∧
      it.status = Status.completed ∧
      it.resultUrl = some "data:image/png;base64,IMGDATA") :=
  ⟨(claim4_failure_isolated wEnvMix wSettings wImages 0 wImgA (by decide)
      (by decide) (by decide)).2.1 "boom" rfl,
   (claim4_failure_isolated wEnvMix wSettings wImages 1 wImgB (by decide)
      (by decide) (by decide)).2.2 "data:image/png;base64,IMGDATA" rfl⟩

/-- C5: an item already completed at run start is skipped: the run issues
    no encoding and no request for it and leaves every one of its fields
    unchanged. -/
theorem claim5_completed_skipped (env : Env) (settings : GenerationSettings)
    (images : List ImageFile) (i : Nat) (img : ImageFile)
    (hnd : (images.map ImageFile.id).Nodup)
    (hget : images[i]? = some img)
    (hst : img.status = .completed) :
    ((startProcessing env settings images).1)[i]? = some img ∧
    ∀ e ∈ (startProcessing env settings images).2, e.itemId ≠ img.id := by
  constructor
  · rw [startProcessing_fst env settings images hnd, List.getElem?_map, hget,
      Option.map_some']
    unfold runItemResult
    rw [if_pos hst]
  · intro e he hid
    rw [startProcessing_snd] at he
    obtain ⟨img2, hm2, he2⟩ := mem_traceOf env settings _ images e he
    have hid2 := itemEvents_itemId env settings _ img2 e he2
    have himg : img2 = img := by
      have hmem : img ∈ images := List.getElem?_mem hget
      refine List.inj_on_of_nodup_map hnd hm2 hmem ?_
      rw [← hid2]
      exact hid
    rw [himg, itemEvents_of_completed env settings _ img hst] at he2
    cases he2

/-- C5 witness: a completed head item is untouched by the run and no event
    of the run carries its id. -/
theorem claim5_witness :
    ((wImagesDone.map ImageFile.id).Nodup ∧ wImagesDone[0]? = some wImgDone ∧
      wImgDone.status = Status.completed) ∧
    (((startProcessing wEnvMix wSettings wImagesDone).1)[0]? = some wImgDone ∧
     ∀ e ∈ (startProcessing wEnvMix wSettings wImagesDone).2,
       e.itemId ≠ wImgDone.id) :=
  ⟨⟨by decide, by decide, by decide⟩,
   claim5_completed_skipped wEnvMix wSettings wImagesDone 0 wImgDone
     (by decide) (by decide) (by decide)⟩

/-- C6: the effective prompt of a run is the custom prompt when non-empty
    and otherwise the selected preset text, it is resolved once at run
    start, and every request of the run carries exactly that string. -/
theorem claim6_effective_prompt (env : Env) (settings : GenerationSettings)
    (images : List ImageFile) (p : String × GenCall)
    (hmem : p ∈ requestsOf ((startProcessing env settings images).2)) :
    p.2.prompt = effectivePrompt settings ∧
    (settings.customPrompt = "" → effectivePrompt settings = settings.preset) ∧
    (settings.customPrompt ≠ "" →
      effectivePrompt settings = settings.customPrompt) := by
  refine ⟨?_, ?_, ?_⟩
  · rw [startProcessing_snd, requestsOf_traceOf] at hmem
    obtain ⟨img, _, hp⟩ := List.mem_filterMap.mp hmem
    unfold plannedRequest at hp
    by_cases hc : img.status = .completed
    · rw [if_pos hc] at hp
      cases hp
    · rw [if_neg hc] at hp
      cases henc : env.encode img.file <;> rw [henc] at hp
      · cases hp
      · rw [← Option.some_inj.mp hp]
  · intro h
    unfold effectivePrompt
    rw [if_pos h]
  · intro h
    unfold effectivePrompt
    rw [if_neg h]

/-- C6 witness: with an empty custom prompt the one request of item b
    carries the Scandinavian preset text. -/
theorem claim6_witness :
    (("b", (⟨"world", "image/jpeg", LifestylePreset.SCANDINAVIAN,
        AspectRatio.r1x1⟩ : GenCall)) ∈
      requestsOf ((startProcessing wEnvMix wSettings wImages).2)) ∧
    ((⟨"world", "image/jpeg", LifestylePreset.SCANDINAVIAN,
        AspectRatio.r1x1⟩ : GenCall).prompt = effectivePrompt wSettings ∧
      (wSettings.customPrompt = "" →
        effectivePrompt wSettings = wSettings.preset) ∧
      (wSettings.customPrompt ≠ "" →
        effectivePrompt wSettings = wSettings.customPrompt)) :=
  ⟨by decide,
   claim6_effective_prompt wEnvMix wSettings wImages
     ("b", ⟨"world", "image/jpeg", LifestylePreset.SCANDINAVIAN,
        AspectRatio.r1x1⟩) (by decide)⟩

/-- C1 (amended): at every point reachable by the public operations,
    including each per-item transition point inside a run: resultUrl is
    present exactly on completed items, an error-status item always
    carries a message, and a pending item carries neither field; however a
    stale error message may remain on a processing or completed item whose
    earlier failure is being re-run, because the setImages spreads never
    clear the error field. -/
theorem claim1_reachable_invariant (c : Conf) (h : Reach c) :
    ∀ it ∈ c.state, ItemInv it :=
  MInv_state c (reach_MInv c h)

/-- C1 witness: the invariant holds of the mid-run collection while the
    freshly added item is marked processing and its request is in flight,
    a state in which the item has status processing and neither optional
    field. -/
theorem claim1_witness :
    ItemInv { id := "a", file := wFile, preview := "pa",
              status := Status.processing, resultUrl := none,
              error := none } :=
  claim1_reachable_invariant
    (Conf.inflight cexEnvFail wSettings cexItem0 []
      (setProcessing cexItem0.id [cexItem0]))
    (Reach.mark cexEnvFail wSettings cexItem0 [] [cexItem0]
      (Reach.begin cexEnvFail wSettings (handleFileChange [] [cexNew])
        (Reach.add [] [cexNew] Reach.empty (by decide) (by decide))
        (by decide))
      (by decide))
    { id := "a", file := wFile, preview := "pa",
      status := Status.processing, resultUrl := none, error := none }
    (by decide)

/-- C1 counterexample: add one file, run with a failing API, then re-run
    with a succeeding API. Mid-way through the second run the machine
    reaches a state whose item is processing while still carrying the
    stale error message, and after that run its item is completed carrying
    both the result URL and the stale error message: two reachable states
    refuting, respectively, that processing items carry neither field and
    that exactly one of the two fields is set on terminal items. -/
theorem claim1_counterexample :
    (Reach (Conf.idle [cexBad]) ∧ ¬ (∀ it ∈ [cexBad], ClaimedInv it)) ∧
    (Reach (Conf.inflight cexEnvOk wSettings cexErrItem [] [cexMidItem]) ∧
      ¬ (∀ it ∈ [cexMidItem], ClaimedInv it)) := by
  have h1 : Reach (Conf.idle [cexItem0]) :=
    Reach.add [] [cexNew] Reach.empty (by decide) (by decide)
  have h2 : Reach (Conf.running cexEnvFail wSettings [cexItem0] [cexItem0]) :=
    Reach.begin cexEnvFail wSettings [cexItem0] h1 (by decide)
  have h3 : Reach (Conf.inflight cexEnvFail wSettings cexItem0 []
      (setProcessing cexItem0.id [cexItem0])) :=
    Reach.mark cexEnvFail wSettings cexItem0 [] [cexItem0] h2 (by decide)
  have h4 : Reach (Conf.running cexEnvFail wSettings [] [cexErrItem]) :=
    Reach.settle cexEnvFail wSettings cexItem0 []
      (setProcessing cexItem0.id [cexItem0]) h3
  have h5 : Reach (Conf.idle [cexErrItem]) :=
    Reach.finish cexEnvFail wSettings [cexErrItem] h4
  have h6 : Reach (Conf.running cexEnvOk wSettings [cexErrItem] [cexErrItem]) :=
    Reach.begin cexEnvOk wSettings [cexErrItem] h5 (by decide)
  have h7 : Reach (Conf.inflight cexEnvOk wSettings cexErrItem []
      [cexMidItem]) :=
    Reach.mark cexEnvOk wSettings cexErrItem [] [cexErrItem] h6 (by decide)
  have h8 : Reach (Conf.running cexEnvOk wSettings [] [cexBad]) :=
    Reach.settle cexEnvOk wSettings cexErrItem [] [cexMidItem] h7
  have h9 : Reach (Conf.idle [cexBad]) :=
    Reach.finish cexEnvOk wSettings [cexBad] h8
  refine ⟨⟨h9, ?_⟩, ⟨h7, ?_⟩⟩
  · intro h
    have hcl := (h cexBad (by decide)).1 (by decide)
    exact absurd hcl.2 (by decide)
  · intro h
    have hcl := (h cexMidItem (by decide)).2.2 (Or.inr (by decide))
    exact absurd hcl.2 (by decide)

end BulkImage